import Mathlib

/-!
Verification of the seed-user authentication core.

This file gives a shallow embedding of the repository's permission model,
user/session/pending-registration datastore operations and the request
handlers that operate on them, together with theorems settling the
specification claims.  Masks are modelled as integers (the values the
program manipulates all lie in 32-bit range, where JavaScript bitwise
operators agree with two's-complement integer bitwise operations);
timestamps are modelled as naturals on a single abstract clock; byte
strings are lists of naturals; the external PBKDF2 primitive is taken as
a parameter.  Database statements are modelled with sequential semantics:
each statement runs to completion in order, and an insert raises a
uniqueness violation exactly when the table already holds a conflicting
row; an orthogonal fault flag models any other datastore failure at the
promotion insert.
-/

namespace Seed

/-! ## Permission model (utils/permissions.ts) -/

def PERM_READ : Int := 1
def PERM_WRITE : Int := 2
def PERM_DELETE : Int := 4
def PERM_MANAGE_USERS : Int := 8
def PERM_EXPORT_DATA : Int := 16
def PERM_AUDIT_LOGS : Int := 32

def ROLE_PRESET_USER : Int := PERM_READ

/-- ROLE_PRESET.ADMIN: PERM.READ | PERM.WRITE | PERM.DELETE | PERM.MANAGE_USERS. -/
def ROLE_PRESET_ADMIN : Int :=
  Int.lor (Int.lor (Int.lor PERM_READ PERM_WRITE) PERM_DELETE) PERM_MANAGE_USERS

def ROLE_PRESET_ROOT : Int := -1

/-- hasPermission from utils/permissions.ts: ROOT (-1) has everything,
otherwise the bitwise AND with the required mask must reproduce it. -/
def hasPermission (userPerm required : Int) : Bool :=
  if userPerm = -1 then true else Int.land userPerm required == required

/-- isRoot from utils/permissions.ts. -/
def isRoot (userPerm : Int) : Bool := userPerm == -1

/-! ## Credential hasher (utils/password.ts, embedded in src/utils/parse-json.ts) -/

/-- Configuration of one PBKDF2 invocation site. -/
structure PBKDF2Params where
  saltLengthBytes : Nat
  iterations : Nat
  digest : String
  keyLengthBytes : Nat
deriving DecidableEq, Repr

def SALT_LENGTH_BYTES : Nat := 32
def PBKDF2_ITERATIONS : Nat := 600000
def KEY_LENGTH_BYTES : Nat := 32
def DIGEST_ALGORITHM : String := "SHA-512"

/-- Parameters of the KDF in utils/password.ts (computePasswordHash). -/
def passwordUtilParams : PBKDF2Params :=
  { saltLengthBytes := SALT_LENGTH_BYTES, iterations := PBKDF2_ITERATIONS,
    digest := DIGEST_ALGORITHM, keyLengthBytes := KEY_LENGTH_BYTES }

/-- Parameters of the KDF hard-coded inside hashPassword in
functions/api/signup.ts: a 16-byte salt, 100_000 iterations, SHA-512,
256-bit (32-byte) output. -/
def signupHashParams : PBKDF2Params :=
  { saltLengthBytes := 16, iterations := 100000, digest := "SHA-512", keyLengthBytes := 32 }

/-- computePasswordHash from utils/password.ts.  The raw PBKDF2 derivation
(crypto.subtle.deriveBits) is an external primitive, passed as
deriveBits; the function rejects a salt that is not exactly
SALT_LENGTH_BYTES long by throwing, modelled as Except.error. -/
def computePasswordHash (deriveBits : String → List Nat → List Nat)
    (password : String) (salt : List Nat) : Except String (List Nat) :=
  if salt.length != SALT_LENGTH_BYTES then
    Except.error "盐的长度必须为 32 字节"
  else
    Except.ok (deriveBits password salt)

/-- verifyPasswordWithSalt from utils/password.ts: recomputes the hash
(letting any derivation error propagate), returns false on a length
mismatch, and otherwise OR-accumulates the XOR of every byte pair and
compares the accumulator with zero. -/
def verifyPasswordWithSalt (deriveBits : String → List Nat → List Nat)
    (password : String) (salt expectedHash : List Nat) : Except String Bool :=
  match computePasswordHash deriveBits password salt with
  | Except.error e => Except.error e
  | Except.ok actualHash =>
    if actualHash.length != expectedHash.length then
      Except.ok false
    else
      Except.ok
        ((actualHash.zip expectedHash).foldl (fun acc q => acc ||| (q.fst ^^^ q.snd)) 0 == 0)

/-- A concrete stand-in derivation primitive, used to evaluate the
credential-hasher model on closed inputs. -/
def zeroDeriveBits : String → List Nat → List Nat :=
  fun _ _ => List.replicate KEY_LENGTH_BYTES 0

/-! ## Data model (tables users, sessions, pending_registrations) -/

structure UserRow where
  id : Nat
  name : String
  email : String
  password_salt : String
  password_hash : String
  permissions : Int
  created_at : Nat
deriving DecidableEq, Repr

structure SessionRow where
  session_id : String
  user_id : Nat
  expires_at : Nat
deriving DecidableEq, Repr

structure PendingRow where
  id : Nat
  name : String
  email : String
  password_salt : String
  password_hash : String
  token : String
  created_at : Nat
  expires_at : Nat
deriving DecidableEq, Repr

structure DB where
  users : List UserRow
  sessions : List SessionRow
  pending : List PendingRow
deriving DecidableEq, Repr

/-! ## UserManager (utils/user-manager.ts, permission-bitmask revision) -/

def getUserById (db : DB) (id : Nat) : Option UserRow :=
  db.users.find? (fun u => u.id == id)

def getUserByName (db : DB) (name : String) : Option UserRow :=
  db.users.find? (fun u => u.name == name)

def getUserByEmail (db : DB) (email : String) : Option UserRow :=
  db.users.find? (fun u => u.email == email)

def rootGrantError : String := "不允许通过此方法授予 ROOT 权限"

/-- updatePermissions from utils/user-manager.ts: a new mask of -1 is
rejected by throwing before any statement runs; otherwise the UPDATE
overwrites the mask of the matching row and the method returns whether a
row was affected (the SQLite changes counter of the UPDATE). -/
def updatePermissions (db : DB) (userId : Nat) (newPermissions : Int) :
    Except String (Bool × DB) :=
  if newPermissions = -1 then
    Except.error rootGrantError
  else
    let changed := db.users.any (fun u => u.id == userId)
    let users2 := db.users.map
      (fun u => if u.id == userId then { u with permissions := newPermissions } else u)
    Except.ok (changed, { db with users := users2 })

/-- deleteUser from utils/user-manager.ts: a single DELETE on the users
table; sessions are not touched by this method. -/
def deleteUser (db : DB) (id : Nat) : Bool × DB :=
  let changed := db.users.any (fun u => u.id == id)
  (changed, { db with users := db.users.filter (fun u => u.id != id) })

/-! ## functions/api/rm-user.ts -/

/-- The rm-user endpoint: validates that user_id is a positive integer,
checks existence, then runs DELETE FROM users followed by DELETE FROM
sessions for that user id, as two sequential statements.  Returns the
response status paired with the resulting database. -/
def rmUser (db : DB) (userId : Int) : Nat × DB :=
  if !(0 < userId) then (400, db)
  else
    match db.users.find? (fun u => (u.id : Int) == userId) with
    | none => (404, db)
    | some _ =>
      let db1 := { db with users := db.users.filter (fun u => ((u.id : Int) != userId)) }
      let db2 := { db1 with sessions := db1.sessions.filter (fun s => ((s.user_id : Int) != userId)) }
      (200, db2)

/-! ## functions/api/auth.ts -/

structure AuthUser where
  id : Nat
  name : String
  email : String
  permissions : Int
  created_at : Nat
deriving DecidableEq, Repr

/-- authenticateRequest from functions/api/auth.ts: resolves the session
cookie with the single SQL query that joins sessions to users and keeps
only rows with expires_at strictly greater than now. -/
def authenticateRequest (db : DB) (sessionId : Option String) (now : Nat) :
    Option AuthUser :=
  match sessionId with
  | none => none
  | some sid =>
    match db.sessions.find? (fun s => s.session_id == sid && decide (s.expires_at > now)) with
    | none => none
    | some s =>
      match db.users.find? (fun u => u.id == s.user_id) with
      | none => none
      | some u => some { id := u.id, name := u.name, email := u.email,
                         permissions := u.permissions, created_at := u.created_at }

/-! ## utils/auth-middleware.ts -/

inductive RootAuthResult where
  | errorResponse (status : Nat) (msg : String) : RootAuthResult
  | authorized (id : Nat) (username : String) (permissions : Int) : RootAuthResult
deriving DecidableEq, Repr

def sessionExpiredMsg : String := "会话已过期"

/-- requireRootUser from utils/auth-middleware.ts.  It fetches the session
row without any expiry condition, then treats the session as expired only
when expires_at is strictly below the current time (deleting it lazily in
that case), then loads the user and demands the root sentinel mask. -/
def requireRootUser (db : DB) (sessionId : Option String) (now : Nat) :
    RootAuthResult × DB :=
  match sessionId with
  | none => (RootAuthResult.errorResponse 401 "未登录或会话无效", db)
  | some sid =>
    match db.sessions.find? (fun s => s.session_id == sid) with
    | none => (RootAuthResult.errorResponse 401 "会话不存在", db)
    | some s =>
      if s.expires_at < now then
        (RootAuthResult.errorResponse 401 sessionExpiredMsg,
          { db with sessions := db.sessions.filter (fun t => t.session_id != sid) })
      else
        match getUserById db s.user_id with
        | none => (RootAuthResult.errorResponse 401 "关联用户不存在", db)
        | some u =>
          if u.id == 0 then (RootAuthResult.errorResponse 401 "关联用户不存在", db)
          else if u.permissions != ROLE_PRESET_ROOT then
            (RootAuthResult.errorResponse 403 "需要 root 权限", db)
          else (RootAuthResult.authorized u.id u.name u.permissions, db)

/-! ## functions/api/set-admin.ts -/

structure SetAdminBody where
  id : Option Nat
  name : Option String
  email : Option String
  revoke : Bool
deriving DecidableEq, Repr

/-- Outcome of the set-admin handler: the response status and, when the
UPDATE on the permissions column affected a row, the (user id, mask) pair
that was written. -/
structure SetAdminOutcome where
  status : Nat
  write : Option (Nat × Int)
deriving DecidableEq, Repr

/-- The set-admin endpoint (POST): requireRootUser, then JavaScript-falsy
presence check on id/name/email, target lookup with id taking precedence
over name over email, the three guards (target exists, target is not the
caller, target is not root), and finally updatePermissions with the fixed
grant mask READ|WRITE|DELETE|MANAGE_USERS or the revoke mask READ. -/
def setAdmin (db : DB) (sessionId : Option String) (now : Nat) (body : SetAdminBody) :
    SetAdminOutcome × DB :=
  match requireRootUser db sessionId now with
  | (RootAuthResult.errorResponse st _, db1) => ({ status := st, write := none }, db1)
  | (RootAuthResult.authorized callerId _ _, db1) =>
    if (body.id.getD 0 == 0) && (body.name.getD "" == "") && (body.email.getD "" == "") then
      ({ status := 400, write := none }, db1)
    else
      let targetUser : Option UserRow :=
        if body.id.isSome then getUserById db1 (body.id.getD 0)
        else if body.name.getD "" != "" then getUserByName db1 (body.name.getD "")
        else if body.email.getD "" != "" then getUserByEmail db1 (body.email.getD "")
        else none
      match targetUser with
      | none => ({ status := 404, write := none }, db1)
      | some t =>
        if t.id == 0 then ({ status := 404, write := none }, db1)
        else if t.id == callerId then ({ status := 400, write := none }, db1)
        else if t.permissions == ROLE_PRESET_ROOT then ({ status := 400, write := none }, db1)
        else
          let newPermissions : Int :=
            if body.revoke then PERM_READ
            else Int.lor (Int.lor (Int.lor PERM_READ PERM_WRITE) PERM_DELETE) PERM_MANAGE_USERS
          match updatePermissions db1 t.id newPermissions with
          | Except.error _ => ({ status := 500, write := none }, db1)
          | Except.ok (success, db2) =>
            if success then ({ status := 200, write := some (t.id, newPermissions) }, db2)
            else ({ status := 500, write := none }, db2)

/-! ## Email-verification endpoint (bitmask revision) -/

structure Resp where
  status : Nat
  body : String
deriving DecidableEq, Repr

def invalidOrExpiredResp : Resp :=
  { status := 404, body := "验证链接已失效或不存在，请重新注册。" }

def verifyConflictResp : Resp :=
  { status := 409, body := "该用户名或邮箱已被注册，请重新尝试。" }

def verifyServerErrorResp : Resp :=
  { status := 500, body := "服务器内部错误，请稍后重试。" }

/-- Stand-in for the success HTML page returned by the endpoint (the
markup itself is presentation and is not reproduced). -/
def verifySuccessResp : Resp :=
  { status := 200, body := "邮箱验证成功" }

/-- The token lookup of the verification endpoint: token equality plus a
strictly-greater expiry comparison against the current time. -/
def findPendingByToken (db : DB) (token : String) (now : Nat) : Option PendingRow :=
  db.pending.find? (fun p => p.token == token && decide (p.expires_at > now))

/-- An INSERT into users raises a uniqueness violation exactly when some
existing row already holds the name or the email (both columns UNIQUE). -/
def userInsertConflict (db : DB) (name email : String) : Bool :=
  db.users.any (fun u => u.name == name || u.email == email)

/-- The users row built by the promotion insert: permissions hard-coded
to 1 (READ), timestamps copied from the pending record. -/
def promotedUser (p : PendingRow) (newId : Nat) : UserRow :=
  { id := newId, name := p.name, email := p.email,
    password_salt := p.password_salt, password_hash := p.password_hash,
    permissions := 1, created_at := p.created_at }

/-- DELETE FROM pending_registrations WHERE token = ?. -/
def pendingRemoved (db : DB) (token : String) : DB :=
  { db with pending := db.pending.filter (fun q => q.token != token) }

/-- The verify-email endpoint (permission-bitmask revision): look up an
unexpired pending record by token; absent record yields the invalid-or-
expired 404.  Then attempt the promotion insert: a uniqueness violation
deletes the pending record and yields 409; any other insert failure
(fault) propagates to the outer catch, yielding 500 with the database
untouched; on success the user is inserted, the pending record deleted
and 200 returned. -/
def verifyEmail (db : DB) (token : String) (now : Nat) (newId : Nat) (fault : Bool) :
    Resp × DB :=
  match findPendingByToken db token now with
  | none => (invalidOrExpiredResp, db)
  | some p =>
    if userInsertConflict db p.name p.email then
      (verifyConflictResp, pendingRemoved db token)
    else if fault then
      (verifyServerErrorResp, db)
    else
      (verifySuccessResp,
        pendingRemoved { db with users := db.users ++ [promotedUser p newId] } token)

/-! ## Signup endpoint (functions/api/signup.ts) -/

def isChineseChar (c : Char) : Bool :=
  0x4e00 ≤ c.toNat && c.toNat ≤ 0x9fa5

def hasChineseChar (s : String) : Bool :=
  s.toList.any isChineseChar

def isUsernameChar (c : Char) : Bool :=
  isChineseChar c || c.isLower || c.isDigit || c == '_' || c == '-'

/-- Model of String.prototype.trim: drop leading and trailing
whitespace. -/
def strTrim (s : String) : String :=
  ⟨((s.data.dropWhile Char.isWhitespace).reverse.dropWhile Char.isWhitespace).reverse⟩

/-- Model of String.prototype.toLowerCase (ASCII case folding). -/
def strToLower (s : String) : String :=
  ⟨s.data.map Char.toLower⟩

/-- validateUsername from functions/api/signup.ts: trim, 1-15 characters,
only CJK / lowercase latin / digits / underscore / hyphen, and not all
digits. -/
def validateUsername (name : String) : Option String :=
  let trimmed := strTrim name
  if trimmed.length == 0 || trimmed.length > 15 then none
  else if !(trimmed.toList.all isUsernameChar) then none
  else if trimmed.toList.all Char.isDigit then none
  else some trimmed

/-- isValidEmail: the test of the anchored pattern that demands a
non-empty whitespace-free at-sign-free local part, a single at sign, and
a domain that contains a dot with non-empty parts on both sides.  The
executable form checks: no whitespace, exactly one at sign, non-empty
before and after it, and a dot strictly inside the part after it. -/
def isValidEmail (email : String) : Bool :=
  let l := email.toList
  (l.all (fun c => !c.isWhitespace)) &&
  (l.count '@' == 1) &&
  (match l.findIdx? (· == '@') with
   | none => false
   | some i =>
     let before := l.take i
     let after := l.drop (i + 1)
     decide (0 < before.length) && decide (0 < after.length) &&
     ((after.drop 1).dropLast.contains '.'))

/-- hashPassword local to functions/api/signup.ts: a fresh random 16-byte
salt (supplied here as the oracle saltB64) and a PBKDF2 derivation with
the signupHashParams configuration; both are base64-encoded strings. -/
def hashPassword (pbkdf2 : PBKDF2Params → String → String → String)
    (password saltB64 : String) : String × String :=
  (saltB64, pbkdf2 signupHashParams password saltB64)

structure SignupBody where
  name : String
  email : String
  password : String
deriving DecidableEq, Repr

structure SignupResult where
  status : Nat
  hashedPassword : Bool
  db : DB
deriving DecidableEq, Repr

/-- The signup endpoint (functions/api/signup.ts): input validation, then
the combined duplicate check over users and pending_registrations (no
expiry condition on the pending side), then password hashing and the
insert of a pending registration valid for five minutes.  hashedPassword
records whether the handler reached the hashing step. -/
def signup (pbkdf2 : PBKDF2Params → String → String → String)
    (db : DB) (body : SignupBody) (saltB64 token : String) (now : Nat) (pendingId : Nat) :
    SignupResult :=
  if body.name == "" || body.email == "" || body.password == "" then
    { status := 400, hashedPassword := false, db := db }
  else
    match validateUsername body.name with
    | none => { status := 400, hashedPassword := false, db := db }
    | some validName =>
      if !isValidEmail body.email then
        { status := 400, hashedPassword := false, db := db }
      else if body.password.length < 12 then
        { status := 400, hashedPassword := false, db := db }
      else if hasChineseChar body.password then
        { status := 400, hashedPassword := false, db := db }
      else
        if db.users.any (fun u => u.email == strToLower body.email || u.name == validName)
            || db.pending.any (fun p => p.email == strToLower body.email || p.name == validName) then
          { status := 409, hashedPassword := false, db := db }
        else
          { status := 201, hashedPassword := true,
            db := { db with pending := db.pending ++ [{
              id := pendingId, name := validName, email := strToLower body.email,
              password_salt := (hashPassword pbkdf2 body.password saltB64).fst,
              password_hash := (hashPassword pbkdf2 body.password saltB64).snd,
              token := token, created_at := now, expires_at := now + 5 * 60 * 1000 }] } }

/-! ## Sample states used to evaluate the model on closed inputs -/

def emptyDb : DB := { users := [], sessions := [], pending := [] }

def rootUserRow : UserRow :=
  { id := 1, name := "root", email := "root@x.com", password_salt := "s0",
    password_hash := "h0", permissions := -1, created_at := 0 }

def plainUserRow : UserRow :=
  { id := 2, name := "bob", email := "bob@x.com", password_salt := "s1",
    password_hash := "h1", permissions := 1, created_at := 0 }

def aliceUserRow : UserRow :=
  { id := 5, name := "alice", email := "alice@elsewhere.com", password_salt := "s2",
    password_hash := "h2", permissions := 1, created_at := 0 }

def rootSessionRow : SessionRow :=
  { session_id := "sid-root", user_id := 1, expires_at := 1000 }

def samplePendingRow : PendingRow :=
  { id := 1, name := "alice", email := "alice@x.com", password_salt := "s3",
    password_hash := "h3", token := "tok", created_at := 0, expires_at := 100 }

def sampleDb : DB :=
  { users := [rootUserRow, plainUserRow], sessions := [rootSessionRow], pending := [] }

def pendingDb : DB := { users := [], sessions := [], pending := [samplePendingRow] }

def conflictDb : DB :=
  { users := [aliceUserRow], sessions := [], pending := [samplePendingRow] }

def samplePbkdf2 : PBKDF2Params → String → String → String :=
  fun _ password saltB64 => password ++ ":" ++ saltB64

def exSignupBody : SignupBody :=
  { name := "alice", email := "alice@x.com", password := "longpassword12" }

def dupSignupBody : SignupBody :=
  { name := "alice", email := "fresh@y.com", password := "longpassword12" }

def exSetAdminBody : SetAdminBody :=
  { id := some 2, name := none, email := none, revoke := false }

/-! # Theorems -/

/-! ## Bitwise helper lemmas -/

theorem intTestBit_ext {a b : Int} (h : ∀ i, a.testBit i = b.testBit i) : a = b := by
  cases a with
  | ofNat m =>
    cases b with
    | ofNat n =>
      have h2 : ∀ i, m.testBit i = n.testBit i := by
        intro i
        have := h i
        simpa [Int.testBit] using this
      exact congrArg Int.ofNat (Nat.eq_of_testBit_eq h2)
    | negSucc n =>
      exfalso
      have hm : m.testBit (m + n) = false :=
        Nat.testBit_eq_false_of_lt
          (lt_of_lt_of_le (Nat.lt_two_pow m) (Nat.pow_le_pow_right (by norm_num) (Nat.le_add_right m n)))
      have hn : n.testBit (m + n) = false :=
        Nat.testBit_eq_false_of_lt
          (lt_of_lt_of_le (Nat.lt_two_pow n) (Nat.pow_le_pow_right (by norm_num) (Nat.le_add_left n m)))
      have := h (m + n)
      simp [Int.testBit, hm, hn] at this
  | negSucc m =>
    cases b with
    | ofNat n =>
      exfalso
      have hm : m.testBit (m + n) = false :=
        Nat.testBit_eq_false_of_lt
          (lt_of_lt_of_le (Nat.lt_two_pow m) (Nat.pow_le_pow_right (by norm_num) (Nat.le_add_right m n)))
      have hn : n.testBit (m + n) = false :=
        Nat.testBit_eq_false_of_lt
          (lt_of_lt_of_le (Nat.lt_two_pow n) (Nat.pow_le_pow_right (by norm_num) (Nat.le_add_left n m)))
      have := h (m + n)
      simp [Int.testBit, hm, hn] at this
    | negSucc n =>
      have h2 : ∀ i, m.testBit i = n.testBit i := by
        intro i
        have := h i
        simpa [Int.testBit] using this
      exact congrArg Int.negSucc (Nat.eq_of_testBit_eq h2)

theorem int_land_eq_right_iff (m r : Int) :
    Int.land m r = r ↔ ∀ i, r.testBit i = true → m.testBit i = true := by
  constructor
  · intro h i hr
    have h2 := congrArg (fun x => Int.testBit x i) h
    simp only [Int.testBit_land] at h2
    rw [hr] at h2
    cases hmi : m.testBit i with
    | false => rw [hmi] at h2; simp at h2
    | true => rfl
  · intro h
    apply intTestBit_ext
    intro i
    rw [Int.testBit_land]
    cases hri : r.testBit i with
    | false => simp
    | true => simp [h i hri]

/-- Claim C1: hasPermission(m, r) is true when m is the root sentinel -1,
and otherwise true exactly when every bit set in the required mask r is
also set in the user mask m (bitwise AND with r reproduces r). -/
theorem c1_hasPermission_spec (m r : Int) :
    hasPermission m r = true ↔
      (m = -1 ∨ ∀ i, r.testBit i = true → m.testBit i = true) := by
  unfold hasPermission
  by_cases hm : m = -1
  · simp [hm]
  · rw [if_neg hm, beq_iff_eq, int_land_eq_right_iff]
    constructor
    · exact Or.inr
    · rintro (h | h)
      · exact absurd h hm
      · exact h

/-! ## User repository: permission updates (Claim C3) -/

/-- Claim C3: updatePermissions rejects a new mask of -1 with an error for
every caller and writes nothing; for any other mask it overwrites the
stored mask of the matching row and returns true exactly when a row was
affected (the user id exists). -/
theorem c3_updatePermissions_spec (db : DB) (uid : Nat) (m : Int) :
    (m = -1 → updatePermissions db uid m = Except.error rootGrantError) ∧
    (m ≠ -1 → ∃ changed db2,
      updatePermissions db uid m = Except.ok (changed, db2) ∧
      (changed = true ↔ ∃ u ∈ db.users, u.id = uid) ∧
      db2.users = db.users.map
        (fun u => if u.id == uid then { u with permissions := m } else u) ∧
      db2.sessions = db.sessions ∧ db2.pending = db.pending) := by
  constructor
  · intro h
    simp [updatePermissions, h]
  · intro h
    refine ⟨db.users.any (fun u => u.id == uid), { db with users := db.users.map (fun u => if u.id == uid then { u with permissions := m } else u) }, ?_, ?_, rfl, rfl, rfl⟩
    · simp [updatePermissions, h]
    · simp [List.any_eq_true]

/-- Witness for C3 at a concrete state: the root sentinel is rejected, and
an ordinary mask write on an existing row reports a change. -/
theorem c3_updatePermissions_witness :
    updatePermissions sampleDb 2 (-1) = Except.error rootGrantError ∧
    (∃ changed db2, updatePermissions sampleDb 2 3 = Except.ok (changed, db2) ∧
      (changed = true ↔ ∃ u ∈ sampleDb.users, u.id = 2) ∧
      db2.users = sampleDb.users.map
        (fun u => if u.id == 2 then { u with permissions := 3 } else u) ∧
      db2.sessions = sampleDb.sessions ∧ db2.pending = sampleDb.pending) :=
  ⟨(c3_updatePermissions_spec sampleDb 2 (-1)).1 rfl,
   (c3_updatePermissions_spec sampleDb 2 3).2 (by decide)⟩

/-! ## Email verification: promotion failure policy (Claim C4) -/

/-- Claim C4: once a live pending record is found, a uniqueness violation
at the promotion insert deletes the pending record and yields the 409
conflict outcome, while any other insert failure yields the 500 outcome
and leaves the database (in particular the pending record) untouched. -/
theorem c4_verifyEmail_failure_policy (db : DB) (tok : String) (now newId : Nat)
    (p : PendingRow) (hfind : findPendingByToken db tok now = some p) :
    (userInsertConflict db p.name p.email = true →
      ∀ fault, verifyEmail db tok now newId fault = (verifyConflictResp, pendingRemoved db tok)) ∧
    (userInsertConflict db p.name p.email = false →
      verifyEmail db tok now newId true = (verifyServerErrorResp, db)) := by
  unfold verifyEmail
  rw [hfind]
  constructor
  · intro hc fault
    simp [hc]
  · intro hc
    simp [hc]

/-- Witness for C4: a conflicting promotion at a concrete state deletes
the pending row and returns 409; a non-uniqueness fault returns 500 and
leaves the state untouched. -/
theorem c4_verifyEmail_failure_witness :
    verifyEmail conflictDb "tok" 5 9 false = (verifyConflictResp, pendingRemoved conflictDb "tok") ∧
    verifyEmail pendingDb "tok" 5 9 true = (verifyServerErrorResp, pendingDb) :=
  ⟨(c4_verifyEmail_failure_policy conflictDb "tok" 5 9 samplePendingRow (by decide)).1 (by decide) false,
   (c4_verifyEmail_failure_policy pendingDb "tok" 5 9 samplePendingRow (by decide)).2 (by decide)⟩

/-! ## Email verification: single-use tokens (Claim C5) -/

theorem findPendingByToken_eq_none {db : DB} {tok : String}
    (h : ∀ q ∈ db.pending, q.token ≠ tok) (now : Nat) :
    findPendingByToken db tok now = none := by
  unfold findPendingByToken
  apply List.find?_eq_none.mpr
  intro q hq
  simp [h q hq]

theorem pendingRemoved_no_token (db : DB) (tok : String) :
    ∀ q ∈ (pendingRemoved db tok).pending, q.token ≠ tok := by
  intro q hq
  unfold pendingRemoved at hq
  simp only [List.mem_filter] at hq
  simpa [bne_iff_ne] using hq.2

/-- Claim C5: verifying a valid unexpired token inserts exactly one users
row and deletes the pending row; a second call with the same token finds
no pending record, returns the same invalid-or-expired outcome as a
never-issued token, and changes nothing. -/
theorem c5_verify_token_single_use (db : DB) (tok : String) (now newId : Nat)
    (p : PendingRow) (hfind : findPendingByToken db tok now = some p)
    (hnoconf : userInsertConflict db p.name p.email = false) :
    ∃ db1,
      verifyEmail db tok now newId false = (verifySuccessResp, db1) ∧
      db1.users = db.users ++ [promotedUser p newId] ∧
      (∀ q ∈ db1.pending, q.token ≠ tok) ∧
      (∀ now2 newId2 fault2,
        verifyEmail db1 tok now2 newId2 fault2 = (invalidOrExpiredResp, db1)) ∧
      (∀ tok2 now2 newId2 fault2, (∀ q ∈ db1.pending, q.token ≠ tok2) →
        verifyEmail db1 tok2 now2 newId2 fault2 = (invalidOrExpiredResp, db1)) := by
  refine ⟨pendingRemoved { db with users := db.users ++ [promotedUser p newId] } tok,
    ?_, rfl, pendingRemoved_no_token _ _, ?_, ?_⟩
  · unfold verifyEmail
    rw [hfind]
    simp [hnoconf]
  · intro now2 newId2 fault2
    unfold verifyEmail
    rw [findPendingByToken_eq_none (pendingRemoved_no_token _ _) now2]
  · intro tok2 now2 newId2 fault2 hq
    unfold verifyEmail
    rw [findPendingByToken_eq_none hq now2]

/-- Witness for C5 at a concrete state: the first verification succeeds
and the second one with the same token reports invalid-or-expired and
leaves the database unchanged. -/
theorem c5_verify_token_single_use_witness :
    (verifyEmail pendingDb "tok" 5 7 false).fst = verifySuccessResp ∧
    verifyEmail (verifyEmail pendingDb "tok" 5 7 false).snd "tok" 6 8 false
      = (invalidOrExpiredResp, (verifyEmail pendingDb "tok" 5 7 false).snd) := by
  obtain ⟨db1, h1, hu, hp, h2, h3⟩ :=
    c5_verify_token_single_use pendingDb "tok" 5 7 samplePendingRow (by decide) (by decide)
  rw [h1]
  exact ⟨rfl, h2 6 8 false⟩

/-! ## User deletion and sessions (Claim C9) -/

/-- Counterexample to C9 as stated: the repository delete method removes
the user row, yet a session row referencing the deleted id is still
present — the user delete and the session cleanup are not one
transaction, and the repository delete alone performs no session
cleanup. -/
theorem c9_deleteUser_counterexample :
    (deleteUser sampleDb 1).snd.users.all (fun u => u.id != 1) = true ∧
    (deleteUser sampleDb 1).snd.sessions.any (fun s => s.user_id == 1) = true := by
  decide

/-- Claim C9 (amended): the rm-user endpoint runs the user delete and the
session delete as two sequential statements; after it completes
successfully, no users row and no session row referencing the deleted id
remains. -/
theorem c9_rmUser_amended (db : DB) (uid : Int)
    (h : (rmUser db uid).fst = 200) :
    (rmUser db uid).snd.sessions.all (fun s => ((s.user_id : Int) != uid)) = true ∧
    (rmUser db uid).snd.users.all (fun u => ((u.id : Int) != uid)) = true := by
  unfold rmUser at h ⊢
  by_cases hpos : 0 < uid
  · cases hfind : db.users.find? (fun u => (u.id : Int) == uid) with
    | none => simp [hpos, hfind] at h
    | some u =>
      simp only [hpos, hfind, List.all_eq_true, List.mem_filter, decide_True, Bool.not_true,
        Bool.false_eq_true, if_false]
      constructor
      · intro s hs
        exact hs.2
      · intro v hv
        exact hv.2
  · simp [hpos] at h

/-- Witness for C9 (amended) at a concrete state. -/
theorem c9_rmUser_witness :
    (rmUser sampleDb 1).snd.sessions.all (fun s => ((s.user_id : Int) != 1)) = true ∧
    (rmUser sampleDb 1).snd.users.all (fun u => ((u.id : Int) != 1)) = true :=
  c9_rmUser_amended sampleDb 1 (by decide)

/-! ## Session expiry boundary (Claim C6) -/

/-- Counterexample to C6 as stated: requireRootUser is a session-validation
path, yet at a state whose session expires exactly now (expires_at = now =
1000) it accepts the session and authorizes the root caller instead of
rejecting it as expired. -/
theorem c6_requireRootUser_boundary_counterexample :
    (requireRootUser sampleDb (some "sid-root") 1000).fst
      = RootAuthResult.authorized 1 "root" (-1) := by
  decide

/-- Claim C6 (amended): the cookie-authentication path authenticateRequest
does reject a session read exactly at its expiry boundary (strict
expires_at > now), but requireRootUser reports a session as expired only
when expires_at < now, so a session at the exact boundary is not treated
as expired there. -/
theorem c6_session_boundary_amended (db : DB) (sid : String) (s : SessionRow) (now : Nat)
    (hfind : db.sessions.find? (fun t => t.session_id == sid) = some s)
    (huniq : ∀ t ∈ db.sessions, t.session_id = sid → t = s) :
    (s.expires_at = now → authenticateRequest db (some sid) now = none) ∧
    ((requireRootUser db (some sid) now).fst
       = RootAuthResult.errorResponse 401 sessionExpiredMsg ↔ s.expires_at < now) := by
  constructor
  · intro hb
    unfold authenticateRequest
    dsimp only
    have hnone : db.sessions.find?
        (fun t => t.session_id == sid && decide (t.expires_at > now)) = none := by
      apply List.find?_eq_none.mpr
      intro t ht
      by_cases hts : t.session_id = sid
      · have hts2 := huniq t ht hts
        subst hts2
        simp [hb]
      · simp [hts]
    rw [hnone]
  · unfold requireRootUser
    dsimp only
    rw [hfind]
    dsimp only
    by_cases hexp : s.expires_at < now
    · rw [if_pos hexp]
      simp [hexp]
    · rw [if_neg hexp]
      cases hu : getUserById db s.user_id with
      | none =>
        simp only [hu]
        constructor
        · intro hc
          exact absurd hc (by decide)
        · intro hc
          exact absurd hc hexp
      | some u =>
        simp only [hu]
        by_cases h0 : u.id = 0
        · rw [if_pos (by simp [h0])]
          constructor
          · intro hc
            simp [sessionExpiredMsg] at hc
          · intro hc
            exact absurd hc hexp
        · rw [if_neg (by simpa using h0)]
          by_cases hroot : u.permissions = ROLE_PRESET_ROOT
          · rw [if_neg (by simp [hroot])]
            constructor
            · intro hc
              exact RootAuthResult.noConfusion hc
            · intro hc
              exact absurd hc hexp
          · rw [if_pos (by simpa [bne_iff_ne] using hroot)]
            constructor
            · intro hc
              simp [sessionExpiredMsg] at hc
            · intro hc
              exact absurd hc hexp

/-- Witness for C6 (amended) at a concrete boundary state. -/
theorem c6_session_boundary_witness :
    authenticateRequest sampleDb (some "sid-root") 1000 = none ∧
    ¬ (requireRootUser sampleDb (some "sid-root") 1000).fst
        = RootAuthResult.errorResponse 401 sessionExpiredMsg := by
  have h := c6_session_boundary_amended sampleDb "sid-root" rootSessionRow 1000
    (by decide) (by decide)
  refine ⟨h.1 rfl, fun hc => ?_⟩
  have := h.2.mp hc
  simp [rootSessionRow] at this

/-! ## Signup key-derivation parameters (Claim C7) -/

/-- Counterexample to C7 as stated: the KDF configuration used by the
signup handler does not run at least 600000 iterations over a salt of the
required 32-byte length (it runs 100000 iterations over a 16-byte
salt). -/
theorem c7_signup_kdf_counterexample :
    ¬ (signupHashParams.iterations ≥ PBKDF2_ITERATIONS ∧
       signupHashParams.saltLengthBytes = SALT_LENGTH_BYTES) := by
  decide

/-- Claim C7 (amended): every hash the signup handler stores is derived by
its local hashPassword, whose PBKDF2 configuration is 100000 iterations,
SHA-512, 32-byte output, 16-byte salt; the 600000-iteration 32-byte-salt
KDF of utils/password.ts exists but is not the one the signup handler
invokes. -/
theorem c7_signup_kdf_amended (pbkdf2 : PBKDF2Params → String → String → String)
    (db : DB) (body : SignupBody) (saltB64 token : String) (now pendingId : Nat)
    (h : (signup pbkdf2 db body saltB64 token now pendingId).status = 201) :
    (∃ row : PendingRow,
      (signup pbkdf2 db body saltB64 token now pendingId).db.pending = db.pending ++ [row] ∧
      row.password_salt = saltB64 ∧
      row.password_hash = pbkdf2 signupHashParams body.password saltB64) ∧
    signupHashParams =
      { saltLengthBytes := 16, iterations := 100000, digest := "SHA-512", keyLengthBytes := 32 } ∧
    passwordUtilParams =
      { saltLengthBytes := 32, iterations := 600000, digest := "SHA-512", keyLengthBytes := 32 } := by
  refine ⟨?_, rfl, rfl⟩
  unfold signup at h ⊢
  by_cases h1 : (body.name == "" || body.email == "" || body.password == "") = true
  · rw [if_pos h1] at h
    simp at h
  · rw [if_neg h1] at h ⊢
    cases hv : validateUsername body.name with
    | none =>
      simp only [hv] at h
      simp at h
    | some vn =>
      simp only [hv] at h ⊢
      by_cases h2 : (!isValidEmail body.email) = true
      · rw [if_pos h2] at h
        simp at h
      · rw [if_neg h2] at h ⊢
        by_cases h3 : body.password.length < 12
        · rw [if_pos h3] at h
          simp at h
        · rw [if_neg h3] at h ⊢
          by_cases h4 : hasChineseChar body.password = true
          · rw [if_pos h4] at h
            simp at h
          · rw [if_neg h4] at h ⊢
            by_cases h5 : (db.users.any (fun u => u.email == strToLower body.email || u.name == vn)
                || db.pending.any (fun p => p.email == strToLower body.email || p.name == vn)) = true
            · rw [if_pos h5] at h
              simp at h
            · rw [if_neg h5]
              exact ⟨_, rfl, rfl, rfl⟩

/-- Witness for C7 (amended): a concrete signup run that stores a pending
row derived with the signup handler's own KDF configuration. -/
theorem c7_signup_kdf_witness :
    (∃ row : PendingRow,
      (signup samplePbkdf2 emptyDb exSignupBody "saltB64" "tok" 0 1).db.pending
        = emptyDb.pending ++ [row] ∧
      row.password_salt = "saltB64" ∧
      row.password_hash = samplePbkdf2 signupHashParams exSignupBody.password "saltB64") ∧
    signupHashParams =
      { saltLengthBytes := 16, iterations := 100000, digest := "SHA-512", keyLengthBytes := 32 } ∧
    passwordUtilParams =
      { saltLengthBytes := 32, iterations := 600000, digest := "SHA-512", keyLengthBytes := 32 } :=
  c7_signup_kdf_amended samplePbkdf2 emptyDb exSignupBody "saltB64" "tok" 0 1 (by decide)

/-! ## Constant-time password verification (Claim C8) -/

theorem nat_lor_eq_zero_iff (a b : Nat) : (a ||| b) = 0 ↔ a = 0 ∧ b = 0 := by
  constructor
  · intro h
    have h2 : ∀ i, (a.testBit i || b.testBit i) = false := by
      intro i
      have h3 := congrArg (fun x => Nat.testBit x i) h
      simpa [Nat.testBit_lor, Nat.zero_testBit] using h3
    constructor
    · apply Nat.eq_of_testBit_eq
      intro i
      simpa [Nat.zero_testBit] using (Bool.or_eq_false_iff.mp (h2 i)).1
    · apply Nat.eq_of_testBit_eq
      intro i
      simpa [Nat.zero_testBit] using (Bool.or_eq_false_iff.mp (h2 i)).2
  · rintro ⟨rfl, rfl⟩
    rfl

theorem foldl_lor_xor_eq_zero_iff (l : List (Nat × Nat)) (a : Nat) :
    l.foldl (fun acc q => acc ||| (q.fst ^^^ q.snd)) a = 0 ↔
      a = 0 ∧ ∀ q ∈ l, q.fst = q.snd := by
  induction l generalizing a with
  | nil => simp
  | cons x xs ih =>
    rw [List.foldl_cons, ih, nat_lor_eq_zero_iff]
    constructor
    · rintro ⟨⟨ha, hx⟩, hxs⟩
      refine ⟨ha, ?_⟩
      intro q hq
      rcases List.mem_cons.mp hq with h | h
      · subst h
        exact Nat.xor_eq_zero.mp hx
      · exact hxs q h
    · rintro ⟨ha, hall⟩
      exact ⟨⟨ha, Nat.xor_eq_zero.mpr (hall x (List.mem_cons_self _ _))⟩,
        fun q hq => hall q (List.mem_cons_of_mem _ hq)⟩

theorem mem_zip_self_eq {l : List Nat} {q : Nat × Nat} (h : q ∈ l.zip l) :
    q.fst = q.snd := by
  induction l with
  | nil => simp at h
  | cons x xs ih =>
    rw [List.zip_cons_cons] at h
    rcases List.mem_cons.mp h with h | h
    · subst h
      rfl
    · exact ih h

theorem zip_fst_eq_snd_iff (a : List Nat) : ∀ b : List Nat, a.length = b.length →
    ((∀ q ∈ a.zip b, q.fst = q.snd) ↔ a = b) := by
  induction a with
  | nil =>
    intro b h
    cases b with
    | nil => simp
    | cons y ys => simp at h
  | cons x xs ih =>
    intro b h
    cases b with
    | nil => simp at h
    | cons y ys =>
      have h2 : xs.length = ys.length := by
        simpa using h
      constructor
      · intro hq
        have hx : x = y := hq (x, y) (by simp)
        have hrest := (ih ys h2).mp (fun q hqm => hq q (by simp [hqm]))
        rw [hx, hrest]
      · intro heq q hqm
        rw [heq] at hqm
        exact mem_zip_self_eq hqm

/-- Counterexample to C8 as stated: on a salt of invalid length (here the
empty byte string) verifyPasswordWithSalt propagates the derivation error
instead of returning false — the error-to-false conversion lives in its
caller, not in verify itself. -/
theorem c8_verify_throws_counterexample :
    verifyPasswordWithSalt zeroDeriveBits "password" [] []
      = Except.error "盐的长度必须为 32 字节" := rfl

/-- Claim C8 (amended): for a salt of the required length the recomputed
hash is compared byte-for-byte (via the XOR-accumulate loop) and the
result is ok-true exactly when they agree; for a salt of any other length
the derivation error propagates out of verifyPasswordWithSalt (the
false-on-error behaviour belongs to its caller, verifyUserPassword). -/
theorem c8_verifyPasswordWithSalt_amended (d : String → List Nat → List Nat)
    (pw : String) (salt expected : List Nat) :
    (salt.length ≠ SALT_LENGTH_BYTES →
      verifyPasswordWithSalt d pw salt expected = Except.error "盐的长度必须为 32 字节") ∧
    (salt.length = SALT_LENGTH_BYTES →
      verifyPasswordWithSalt d pw salt expected = Except.ok (decide (d pw salt = expected))) := by
  constructor
  · intro h
    have hb : (salt.length != SALT_LENGTH_BYTES) = true := by
      simpa [bne_iff_ne] using h
    simp [verifyPasswordWithSalt, computePasswordHash, hb]
  · intro h
    have hb : (salt.length != SALT_LENGTH_BYTES) = false := by
      simp [h]
    simp only [verifyPasswordWithSalt, computePasswordHash, hb, Bool.false_eq_true, if_false]
    by_cases hl : (d pw salt).length = expected.length
    · have hb2 : ((d pw salt).length != expected.length) = false := by
        simp [hl]
      simp only [hb2, Bool.false_eq_true, if_false]
      congr 1
      have hiff : ((d pw salt).zip expected).foldl
          (fun acc q => acc ||| (q.fst ^^^ q.snd)) 0 = 0 ↔ d pw salt = expected := by
        rw [foldl_lor_xor_eq_zero_iff]
        simp only [true_and]
        exact zip_fst_eq_snd_iff (d pw salt) expected hl
      by_cases he : d pw salt = expected
      · have hz := hiff.mpr he
        rw [hz]
        simp [he]
      · have hz : ¬ ((d pw salt).zip expected).foldl
            (fun acc q => acc ||| (q.fst ^^^ q.snd)) 0 = 0 := fun hzz => he (hiff.mp hzz)
        cases hfe : (((d pw salt).zip expected).foldl
            (fun acc q => acc ||| (q.fst ^^^ q.snd)) 0 == 0) with
        | true => exact absurd (by simpa using hfe) hz
        | false => simp [he]
    · have hb2 : ((d pw salt).length != expected.length) = true := by
        simpa [bne_iff_ne] using hl
      simp only [hb2, if_true]
      have hne : d pw salt ≠ expected := by
        intro he
        exact hl (by rw [he])
      simp [hne]

/-- Witness for C8 (amended): a correct-length salt with a matching
expected hash verifies to ok-true; a mismatching one to ok-false. -/
theorem c8_verifyPasswordWithSalt_witness :
    verifyPasswordWithSalt zeroDeriveBits "pw" (List.replicate 32 7) (List.replicate 32 0)
      = Except.ok true ∧
    verifyPasswordWithSalt zeroDeriveBits "pw" (List.replicate 32 7) (List.replicate 32 1)
      = Except.ok false := by
  have h1 := (c8_verifyPasswordWithSalt_amended zeroDeriveBits "pw"
    (List.replicate 32 7) (List.replicate 32 0)).2 (by decide)
  have h2 := (c8_verifyPasswordWithSalt_amended zeroDeriveBits "pw"
    (List.replicate 32 7) (List.replicate 32 1)).2 (by decide)
  rw [h1, h2]
  exact ⟨rfl, rfl⟩

/-! ## Signup duplicate check ignores pending expiry (Claim C10) -/

/-- Claim C10: once the request body passes validation, a pending record
matching the (lower-cased) email or the validated name — with no expiry
condition whatsoever, hence even an already-expired record — makes the
signup handler return 409 before any password hashing and without
touching the database. -/
theorem c10_signup_pending_dup_check (pbkdf2 : PBKDF2Params → String → String → String)
    (db : DB) (body : SignupBody) (saltB64 token : String) (now pendingId : Nat)
    (vn : String)
    (hname : validateUsername body.name = some vn)
    (hemail : isValidEmail body.email = true)
    (hlen : ¬ body.password.length < 12)
    (hcn : hasChineseChar body.password = false)
    (hdup : ∃ p ∈ db.pending, p.email = strToLower body.email ∨ p.name = vn) :
    signup pbkdf2 db body saltB64 token now pendingId
      = { status := 409, hashedPassword := false, db := db } := by
  have hne : body.name ≠ "" := by
    intro he
    rw [he, show validateUsername "" = none by decide] at hname
    exact Option.noConfusion hname
  have hee : body.email ≠ "" := by
    intro he
    rw [he, show isValidEmail "" = false by decide] at hemail
    exact Bool.noConfusion hemail
  have hpe : body.password ≠ "" := by
    intro he
    apply hlen
    rw [he]
    decide
  have hcond1 : (body.name == "" || body.email == "" || body.password == "") = false := by
    simp [hne, hee, hpe]
  have hdupb : (db.users.any (fun u => u.email == strToLower body.email || u.name == vn)
      || db.pending.any (fun p => p.email == strToLower body.email || p.name == vn)) = true := by
    have hpend : db.pending.any (fun p => p.email == strToLower body.email || p.name == vn) = true := by
      apply List.any_eq_true.mpr
      rcases hdup with ⟨p, hp, hor⟩
      refine ⟨p, hp, ?_⟩
      rcases hor with h | h
      · simp [h]
      · simp [h]
    simp [hpend]
  unfold signup
  simp only [hcond1, Bool.false_eq_true, if_false, hname]
  simp only [hemail, Bool.not_true, Bool.false_eq_true, if_false]
  simp only [if_neg hlen]
  simp only [hcn, Bool.false_eq_true, if_false]
  simp only [hdupb, if_true]

/-- Witness for C10 at a concrete state: the only pending row expired at
time 100, yet a signup at time 999999 whose name matches it is rejected
with 409, hashes no password and leaves the database unchanged. -/
theorem c10_signup_pending_dup_witness :
    signup samplePbkdf2 pendingDb dupSignupBody "saltB64" "tok2" 999999 2
      = { status := 409, hashedPassword := false, db := pendingDb } ∧
    samplePendingRow.expires_at < 999999 :=
  ⟨c10_signup_pending_dup_check samplePbkdf2 pendingDb dupSignupBody "saltB64" "tok2" 999999 2
      "alice" (by decide) (by decide) (by decide) (by decide)
      ⟨samplePendingRow, by decide, Or.inr rfl⟩,
   by decide⟩

/-! ## Grant/revoke-admin endpoint safety (Claim C2) -/

theorem requireRootUser_authorized_inv (db : DB) (sessionId : Option String) (now : Nat)
    (cid : Nat) (cname : String) (cperm : Int) (db1 : DB)
    (h : requireRootUser db sessionId now = (RootAuthResult.authorized cid cname cperm, db1)) :
    db1 = db ∧
    cperm = ROLE_PRESET_ROOT ∧
    ∃ sid s u, sessionId = some sid ∧
      db.sessions.find? (fun t => t.session_id == sid) = some s ∧
      ¬ s.expires_at < now ∧
      getUserById db s.user_id = some u ∧
      u.id = cid ∧ u.name = cname ∧ u.permissions = cperm := by
  cases sessionId with
  | none =>
    unfold requireRootUser at h
    simp at h
  | some sid =>
    unfold requireRootUser at h
    dsimp only at h
    split at h
    · simp at h
    · rename_i s hfind
      split at h
      · simp at h
      · rename_i hexp
        split at h
        · simp at h
        · rename_i u hu
          split at h
          · simp at h
          · rename_i hg0
            split at h
            · simp at h
            · rename_i hgroot
              simp only [Prod.mk.injEq, RootAuthResult.authorized.injEq] at h
              obtain ⟨⟨e1, e2, e3⟩, edb⟩ := h
              have hrootp : u.permissions = ROLE_PRESET_ROOT := by
                simpa using hgroot
              exact ⟨edb.symm, by rw [← e3, hrootp], sid, s, u, rfl, hfind, hexp, hu, e1, e2, e3⟩

theorem setAdmin_target_mem {db : DB} {body : SetAdminBody} {t : UserRow}
    (h : (if body.id.isSome then getUserById db (body.id.getD 0)
      else if body.name.getD "" != "" then getUserByName db (body.name.getD "")
      else if body.email.getD "" != "" then getUserByEmail db (body.email.getD "")
      else none) = some t) : t ∈ db.users := by
  unfold getUserById getUserByName getUserByEmail at h
  split at h
  · exact List.mem_of_find?_eq_some h
  · split at h
    · exact List.mem_of_find?_eq_some h
    · split at h
      · exact List.mem_of_find?_eq_some h
      · exact Option.noConfusion h

/-- Claim C2: whenever the set-admin endpoint writes a permissions value,
the caller resolved through an unexpired session to a user holding the
root sentinel -1, the written target is a different user whose prior mask
is not -1, and the written value is exactly READ|WRITE|DELETE|MANAGE_USERS
(15) on grant or READ (1) on revoke — no other value can be written. -/
theorem c2_setAdmin_write_guarded (db : DB) (sessionId : Option String) (now : Nat)
    (body : SetAdminBody) (uid : Nat) (v : Int)
    (h : (setAdmin db sessionId now body).fst.write = some (uid, v)) :
    (∃ sid s u, sessionId = some sid ∧
      db.sessions.find? (fun t => t.session_id == sid) = some s ∧
      ¬ s.expires_at < now ∧
      getUserById db s.user_id = some u ∧
      u.permissions = ROLE_PRESET_ROOT ∧
      uid ≠ u.id) ∧
    (∃ t ∈ db.users, t.id = uid ∧ t.permissions ≠ ROLE_PRESET_ROOT) ∧
    v = (if body.revoke then PERM_READ else ROLE_PRESET_ADMIN) ∧
    (v = 15 ∨ v = 1) := by
  unfold setAdmin at h
  split at h
  · simp at h
  · rename_i callerId username permissions db1 heq
    obtain ⟨hdb1, hperm, sid, s, u, hsid, hfind, hexp, hu, hid, hname2, hperm2⟩ :=
      requireRootUser_authorized_inv db sessionId now callerId username permissions db1 heq
    subst db1
    split at h
    · simp at h
    · cases htar : (if body.id.isSome then getUserById db (body.id.getD 0)
          else if body.name.getD "" != "" then getUserByName db (body.name.getD "")
          else if body.email.getD "" != "" then getUserByEmail db (body.email.getD "")
          else none) with
      | none =>
        rw [htar] at h
        simp at h
      | some t =>
        rw [htar] at h
        dsimp only at h
        by_cases hg0 : (t.id == 0) = true
        · rw [if_pos hg0] at h
          simp at h
        · rw [if_neg hg0] at h
          by_cases hg1 : (t.id == callerId) = true
          · rw [if_pos hg1] at h
            simp at h
          · rw [if_neg hg1] at h
            by_cases hg2 : (t.permissions == ROLE_PRESET_ROOT) = true
            · rw [if_pos hg2] at h
              simp at h
            · rw [if_neg hg2] at h
              cases hupd : updatePermissions db t.id
                  (if body.revoke = true then PERM_READ
                   else Int.lor (Int.lor (Int.lor PERM_READ PERM_WRITE) PERM_DELETE)
                     PERM_MANAGE_USERS) with
              | error e =>
                rw [hupd] at h
                simp at h
              | ok pr =>
                obtain ⟨success, db2⟩ := pr
                rw [hupd] at h
                dsimp only at h
                by_cases hsucc : success = true
                · rw [if_pos hsucc] at h
                  dsimp only at h
                  simp only [Option.some.injEq, Prod.mk.injEq] at h
                  obtain ⟨ha, hb⟩ := h
                  have htne : t.id ≠ callerId := by
                    simpa using hg1
                  have htroot : t.permissions ≠ ROLE_PRESET_ROOT := by
                    simpa using hg2
                  refine ⟨⟨sid, s, u, hsid, hfind, hexp, hu, by rw [hperm2, hperm], ?_⟩,
                    ⟨t, setAdmin_target_mem htar, ha, htroot⟩, hb.symm, ?_⟩
                  · rw [← ha, hid]
                    exact htne
                  · cases hrv : body.revoke with
                    | true =>
                      right
                      rw [← hb, hrv]
                      rfl
                    | false =>
                      left
                      rw [← hb, hrv]
                      decide
                · rw [if_neg hsucc] at h
                  simp at h

/-- Witness for C2 at a concrete state: a root session granting admin to
user 2 writes exactly the mask 15 and satisfies every guard. -/
theorem c2_setAdmin_write_witness :
    (setAdmin sampleDb (some "sid-root") 500 exSetAdminBody).fst.write = some (2, 15) ∧
    ((∃ sid s u, (some "sid-root" : Option String) = some sid ∧
      sampleDb.sessions.find? (fun t => t.session_id == sid) = some s ∧
      ¬ s.expires_at < 500 ∧
      getUserById sampleDb s.user_id = some u ∧
      u.permissions = ROLE_PRESET_ROOT ∧
      (2 : Nat) ≠ u.id) ∧
    (∃ t ∈ sampleDb.users, t.id = 2 ∧ t.permissions ≠ ROLE_PRESET_ROOT) ∧
    (15 : Int) = (if exSetAdminBody.revoke then PERM_READ else ROLE_PRESET_ADMIN) ∧
    ((15 : Int) = 15 ∨ (15 : Int) = 1)) :=
  ⟨by decide,
   c2_setAdmin_write_guarded sampleDb (some "sid-root") 500 exSetAdminBody 2 15 (by decide)⟩

end Seed
